import Mathlib

/-!
Verification of the opticom conversation-lifecycle core.

The definitions below are a shallow embedding of the TypeScript sources:
`ConversationService` (src/unnamed/part_003), `AgentService` and
`OpenAIService` (src/unnamed/part_002), and `BackgroundService`
(src/src/services/backgroundService.ts), over the domain models in
src/src/domain/models.  The repository layer (`IAgentRepository`,
`IConversationRepository`) is not part of the sources; following the spec
it is modelled as a plain in-memory CRUD store over lists.  Timestamps are
modelled as natural numbers, and the external text-generation provider is
modelled as an explicit input of each driver step.
-/

/-- Status options for an agent (src/src/domain models, `AgentStatus`). -/
inductive AgentStatus where
  | active
  | inactive
deriving DecidableEq, Repr

/-- Types of agents available in the system (`AgentType`). -/
inductive AgentType where
  | learning
  | assistant
  | specialist
deriving DecidableEq, Repr

/-- An AI agent record (domain model `Agent`). -/
structure Agent where
  id : String
  name : String
  type : AgentType
  description : Option String
  status : AgentStatus
  createdAt : Nat
deriving DecidableEq, Repr

/-- Status options for a conversation (`ConversationStatus`). -/
inductive ConversationStatus where
  | active
  | completed
  | terminated
  | paused
deriving DecidableEq, Repr

/-- A message within a conversation (domain model `Message`).  The
`ConversationService` stores every message with an explicit recipient list
(the sentinel is expanded before storage), so stored recipients are a
plain list.  Message ids are assigned by the repository, which is not in
the sources; they are modelled as the empty string since nothing reads
them. -/
structure Message where
  id : String
  conversationId : String
  senderId : String
  content : String
  recipients : List String
  timestamp : Nat
deriving DecidableEq, Repr

/-- A conversation between agents (domain model `Conversation`). -/
structure Conversation where
  id : String
  name : String
  topic : String
  goal : String
  surrounding : String
  status : ConversationStatus
  participants : List String
  messages : List Message
  startedAt : Nat
  endedAt : Option Nat
  goalAchieved : Option Bool
deriving DecidableEq, Repr

/-- Recipients of a message as supplied to `addMessage`: the sentinel
`all` or an explicit list of agent ids (`AddMessageDTO.recipients`). -/
inductive Recipients where
  | all
  | explicit (ids : List String)
deriving DecidableEq, Repr

/-- Modelled from the spec: the persistent store reached through
`IAgentRepository` and `IConversationRepository` (the repository
implementations are not among the sources; the spec describes them as a
simple CRUD store over agent and conversation records). -/
structure SystemState where
  agents : List Agent
  conversations : List Conversation
deriving DecidableEq, Repr

/-- Modelled from the spec: `agentRepository.findById` - first agent
record whose id matches. -/
def findAgent (s : SystemState) (id : String) : Option Agent :=
  s.agents.find? (fun a => a.id = id)

/-- Modelled from the spec: `agentRepository.findByName` - first agent
record whose name matches (case-sensitive exact match). -/
def findAgentByName (s : SystemState) (name : String) : Option Agent :=
  s.agents.find? (fun a => a.name = name)

/-- Modelled from the spec: `conversationRepository.findById`. -/
def findConv (s : SystemState) (id : String) : Option Conversation :=
  s.conversations.find? (fun c => c.id = id)

/-- Modelled from the spec: `conversationRepository.findByName`
(case-sensitive exact match). -/
def findConvByName (s : SystemState) (name : String) : Option Conversation :=
  s.conversations.find? (fun c => c.name = name)

/-- Modelled from the spec: `agentRepository.update(id, { status })` -
patch the status of the agent records with the given id. -/
def setAgentStatus (ags : List Agent) (id : String) (st : AgentStatus) : List Agent :=
  ags.map (fun a => if a.id = id then { a with status := st } else a)

/-- One `agentRepository.update(pid, { status })` call per id in the list,
in order, as done by the participant-reservation loops of
`createConversation`, `completeConversation` and `terminateConversation`. -/
def setStatuses (ags : List Agent) (pids : List String) (st : AgentStatus) : List Agent :=
  pids.foldl (fun l pid => setAgentStatus l pid st) ags

/-- Modelled from the spec: `conversationRepository.update(id, patch)` -
patch the conversation records with the given id. -/
def updateConvs (convs : List Conversation) (id : String)
    (patch : Conversation → Conversation) : List Conversation :=
  convs.map (fun c => if c.id = id then patch c else c)

/-- Errors thrown by the services, one constructor per throw site. -/
inductive ConvError where
  | duplicateName
  | invalidParticipantCount
  | agentNotFound (id : String)
  | agentNotAvailable (name : String)
  | notFound
  | invalidState (msg : String)
  | notParticipant
  | invalidRecipients (ids : List String)
deriving DecidableEq, Repr

/-- Data transfer object for creating a new conversation
(`CreateConversationDTO`). -/
structure CreateConversationDTO where
  name : String
  topic : String
  goal : String
  surrounding : String
  participantIds : List String
deriving DecidableEq, Repr

/-- Data transfer object for adding a message (`AddMessageDTO`). -/
structure AddMessageDTO where
  conversationId : String
  senderId : String
  content : String
  recipients : Recipients
deriving DecidableEq, Repr

namespace ConversationService

/-- Participant-availability loop of `createConversation`
(part_003 lines 166-174): for each participant id, the agent must resolve
and be `inactive`; the first violation aborts the call. -/
def checkParticipants (s : SystemState) : List String → Except ConvError Unit
  | [] => .ok ()
  | pid :: rest =>
    match findAgent s pid with
    | none => .error (.agentNotFound pid)
    | some a =>
      if a.status ≠ .inactive then .error (.agentNotAvailable a.name)
      else checkParticipants s rest

/-- ConversationService.createConversation (part_003 lines 153-202).
Validates name uniqueness, participant count (2..10) and availability of
every participant, then persists the conversation (`active`, no messages)
and flips each participant to `active`.  `newId` stands for the
repository-assigned id and `now` for `new Date()`.  A thrown error leaves
the state as it was at the throw site (all throws precede all writes). -/
def createConversation (s : SystemState) (newId : String) (now : Nat)
    (data : CreateConversationDTO) : Except ConvError Conversation × SystemState :=
  if (findConvByName s data.name).isSome then (.error .duplicateName, s)
  else if data.participantIds.length < 2 ∨ data.participantIds.length > 10 then
    (.error .invalidParticipantCount, s)
  else
    match checkParticipants s data.participantIds with
    | .error e => (.error e, s)
    | .ok _ =>
      let conv : Conversation :=
        { id := newId, name := data.name, topic := data.topic, goal := data.goal,
          surrounding := data.surrounding, status := .active,
          participants := data.participantIds, messages := [],
          startedAt := now, endedAt := none, goalAchieved := some false }
      let s1 : SystemState := { s with conversations := s.conversations ++ [conv] }
      let s2 : SystemState := { s1 with agents := setStatuses s1.agents data.participantIds .active }
      (.ok conv, s2)

/-- Modelled from the spec: `conversationRepository.addMessage(id, msg)` -
append the message to the message log of the conversation(s) with the
given id. -/
def repoAddMessage (convs : List Conversation) (id : String) (m : Message) :
    List Conversation :=
  updateConvs convs id (fun c => { c with messages := c.messages ++ [m] })

/-- ConversationService.addMessage (part_003 lines 210-248).  Requires an
existing `active` conversation, a sender drawn from the participants, and
explicit recipients drawn from the participants; the sentinel `all` is
expanded to the full participant list before storing. -/
def addMessage (s : SystemState) (now : Nat) (data : AddMessageDTO) :
    Except ConvError Message × SystemState :=
  match findConv s data.conversationId with
  | none => (.error .notFound, s)
  | some conversation =>
    if conversation.status ≠ .active then
      (.error (.invalidState "Cannot add message to a non-active conversation"), s)
    else if ¬ conversation.participants.contains data.senderId then
      (.error .notParticipant, s)
    else
      match data.recipients with
      | .explicit ids =>
        let invalid := ids.filter (fun i => ¬ conversation.participants.contains i)
        if invalid ≠ [] then (.error (.invalidRecipients invalid), s)
        else
          let m : Message :=
            { id := "", conversationId := data.conversationId,
              senderId := data.senderId, content := data.content,
              recipients := ids, timestamp := now }
          (.ok m, { s with conversations := repoAddMessage s.conversations data.conversationId m })
      | .all =>
        let m : Message :=
          { id := "", conversationId := data.conversationId,
            senderId := data.senderId, content := data.content,
            recipients := conversation.participants, timestamp := now }
        (.ok m, { s with conversations := repoAddMessage s.conversations data.conversationId m })

/-- ConversationService.completeConversation (part_003 lines 257-285).
Legal only from `active`; releases every participant to `inactive`, then
stamps `completed`, the end time and the achieved flag. -/
def completeConversation (s : SystemState) (id : String) (goalAchieved : Bool)
    (now : Nat) : Except ConvError Conversation × SystemState :=
  match findConv s id with
  | none => (.error .notFound, s)
  | some conversation =>
    if conversation.status ≠ .active then
      (.error (.invalidState "Conversation is not active"), s)
    else
      let ags := setStatuses s.agents conversation.participants .inactive
      let patch : Conversation → Conversation := fun c =>
        { c with status := .completed, endedAt := some now, goalAchieved := some goalAchieved }
      let convs := updateConvs s.conversations id patch
      (.ok (patch conversation), { agents := ags, conversations := convs })

/-- ConversationService.pauseConversation (part_003 lines 293-308).
Legal only from `active`; agents stay reserved. -/
def pauseConversation (s : SystemState) (id : String) :
    Except ConvError Conversation × SystemState :=
  match findConv s id with
  | none => (.error .notFound, s)
  | some conversation =>
    if conversation.status ≠ .active then
      (.error (.invalidState "Only active conversations can be paused"), s)
    else
      let patch : Conversation → Conversation := fun c => { c with status := .paused }
      (.ok (patch conversation), { s with conversations := updateConvs s.conversations id patch })

/-- ConversationService.pauseAllConversations (part_003 lines 314-322).
Updates every currently `active` conversation to `paused`, one repository
update per conversation; agents are left untouched. -/
def pauseAllConversations (s : SystemState) : SystemState :=
  let actives := s.conversations.filter (fun c => c.status = .active)
  actives.foldl
    (fun st c =>
      { st with conversations := updateConvs st.conversations c.id (fun x => { x with status := .paused }) })
    s

/-- ConversationService.unpauseConversation (part_003 lines 330-350).
Legal only from `paused`. -/
def unpauseConversation (s : SystemState) (id : String) :
    Except ConvError Conversation × SystemState :=
  match findConv s id with
  | none => (.error .notFound, s)
  | some conversation =>
    if conversation.status ≠ .paused then
      (.error (.invalidState "Only paused conversations can be unpaused"), s)
    else
      let patch : Conversation → Conversation := fun c => { c with status := .active }
      (.ok (patch conversation), { s with conversations := updateConvs s.conversations id patch })

/-- ConversationService.terminateConversation (part_003 lines 358-386).
Legal from `active` or `paused`; releases every participant, stamps
`terminated`, the end time and `goalAchieved = false`. -/
def terminateConversation (s : SystemState) (id : String) (now : Nat) :
    Except ConvError Conversation × SystemState :=
  match findConv s id with
  | none => (.error .notFound, s)
  | some conversation =>
    if conversation.status ≠ .active ∧ conversation.status ≠ .paused then
      (.error (.invalidState "Only active or paused conversations can be terminated"), s)
    else
      let ags := setStatuses s.agents conversation.participants .inactive
      let patch : Conversation → Conversation := fun c =>
        { c with status := .terminated, endedAt := some now, goalAchieved := some false }
      let convs := updateConvs s.conversations id patch
      (.ok (patch conversation), { agents := ags, conversations := convs })

end ConversationService

/-- Errors thrown by `AgentService`. -/
inductive AgentError where
  | invalidInput
  | duplicateName
  | notFound
  | invalidState
deriving DecidableEq, Repr

/-- Data transfer object for creating a new agent (`CreateAgentDTO`,
part_002 lines 431-440): the status field is optional and defaults to
`inactive`. -/
structure CreateAgentDTO where
  name : String
  type : AgentType
  status : Option AgentStatus
  description : Option String
deriving DecidableEq, Repr

namespace AgentService

/-- AgentService.isNameTaken (part_002 lines 475-478). -/
def isNameTaken (s : SystemState) (name : String) : Bool :=
  (findAgentByName s name).isSome

/-- AgentService.createAgent (part_002 lines 486-506).  Rejects names
shorter than 3 characters, then duplicate names; otherwise persists the
agent with `data.status || 'inactive'`.  `newId` stands for the
repository-assigned id and `now` for the creation timestamp. -/
def createAgent (s : SystemState) (newId : String) (now : Nat)
    (data : CreateAgentDTO) : Except AgentError Agent × SystemState :=
  if data.name.length < 3 then (.error .invalidInput, s)
  else if isNameTaken s data.name then (.error .duplicateName, s)
  else
    let agent : Agent :=
      { id := newId, name := data.name, type := data.type,
        description := data.description, status := data.status.getD .inactive,
        createdAt := now }
    (.ok agent, { s with agents := s.agents ++ [agent] })

end AgentService

/-- Denormalized participant entry of a conversation context
(`ConversationContext.participants`). -/
structure ContextParticipant where
  id : String
  name : String
  type : AgentType
  description : Option String
deriving DecidableEq, Repr

/-- Conversation context cached by the Generation Driver
(`ConversationContext`). -/
structure ConversationContext where
  topic : String
  goal : String
  surrounding : String
  participants : List ContextParticipant
  messageCount : Nat
deriving DecidableEq, Repr

/-- Mutable fields of `OpenAIService`: the client handle, the context
cache, the goal-check cadence, the consecutive-error counter with its
threshold, and the enabled flag with its reason. -/
structure DriverState where
  hasClient : Bool
  contexts : List (String × ConversationContext)
  messageCheckThreshold : Nat
  consecutiveErrors : Nat
  maxConsecutiveErrors : Nat
  isEnabled : Bool
  disabledReason : Option String
deriving DecidableEq, Repr

/-- Result of one call to the external text-generation provider: a thrown
provider error, a response with no content, or a content string. -/
inductive ExternalResult where
  | err
  | empty
  | reply (content : String)
deriving DecidableEq, Repr

/-- Errors thrown inside the Generation Driver, one constructor per
throw site. -/
inductive DriverError where
  | apiError
  | noResponse
  | malformedResponse
  | unknownSpeaker (name : String)
  | contextNotFound
  | agentNotFound (id : String)
  | notFound
  | senderNotInContext (id : String)
deriving DecidableEq, Repr

/-- Observable outcome of one driver step: the try block ran to its end,
the catch handler fired, or the step was skipped because the service is
disabled. -/
inductive StepOutcome where
  | ok
  | errStep
  | skipped
deriving DecidableEq, Repr

/-- Last `n` elements of a list, as `messages.slice(-n)`. -/
def lastN (n : Nat) (l : List α) : List α :=
  l.drop (l.length - n)

/-- Lookup in the `conversationContexts` map. -/
def lookupCtx (ctxs : List (String × ConversationContext)) (id : String) :
    Option ConversationContext :=
  (ctxs.find? (fun p => p.1 = id)).map (fun p => p.2)

/-- Map.set on the `conversationContexts` map. -/
def ctxSet (ctxs : List (String × ConversationContext)) (id : String)
    (ctx : ConversationContext) : List (String × ConversationContext) :=
  (id, ctx) :: ctxs.filter (fun p => p.1 ≠ id)

/-- In-place mutation of the context object stored under `id`
(the TypeScript code mutates the object held by the map). -/
def ctxModify (ctxs : List (String × ConversationContext)) (id : String)
    (f : ConversationContext → ConversationContext) :
    List (String × ConversationContext) :=
  ctxs.map (fun p => if p.1 = id then (p.1, f p.2) else p)

/-- Whitespace test used to model `trim` and the regex class `\\s`. -/
def isWsChar (c : Char) : Bool :=
  c = ' ' ∨ c = '\t' ∨ c = '\n' ∨ c = '\r'

/-- Character-level model of `trim`: strip leading and trailing
whitespace. -/
def trimChars (cs : List Char) : List Char :=
  ((cs.dropWhile isWsChar).reverse.dropWhile isWsChar).reverse

/-- Character-level model of `toLowerCase`. -/
def lowerChars (cs : List Char) : List Char :=
  cs.map Char.toLower

/-- Substring test on character lists, modelling `String.includes`. -/
def containsSub (needle : List Char) : List Char → Bool
  | [] => needle.isPrefixOf []
  | c :: rest => needle.isPrefixOf (c :: rest) || containsSub needle rest

/-- The answer check of `checkGoalAchievement`:
`answer.toLowerCase().includes('yes')`. -/
def containsYes (s : String) : Bool :=
  containsSub "yes".toList (lowerChars s.toList)

/-- Split a character list at its first colon: the regex
`^([^:]+):` takes everything before the first colon as the name.
Returns `none` when there is no colon at all. -/
def splitFirstColon : List Char → Option (List Char × List Char)
  | [] => none
  | c :: rest =>
    if c = ':' then some ([], rest)
    else
      match splitFirstColon rest with
      | none => none
      | some (pre, post) => some (c :: pre, post)

namespace OpenAIService

/-- OpenAIService.disableService (part_002 lines 55-60). -/
def disableService (ds : DriverState) (reason : String) : DriverState :=
  { ds with isEnabled := false, disabledReason := some reason }

/-- OpenAIService.handleApiError (part_002 lines 78-84): increment the
consecutive-error counter and disable the service once it reaches the
threshold. -/
def handleApiError (ds : DriverState) : DriverState :=
  let ds1 := { ds with consecutiveErrors := ds.consecutiveErrors + 1 }
  if ds1.consecutiveErrors ≥ ds1.maxConsecutiveErrors then
    disableService ds1 "Too many consecutive API errors. Service temporarily disabled."
  else ds1

/-- OpenAIService.resetErrorCount (part_002 lines 90-92). -/
def resetErrorCount (ds : DriverState) : DriverState :=
  { ds with consecutiveErrors := 0 }

/-- Participant resolution of `initializeConversation` (part_002 lines
99-110): every participant id must resolve to an agent record. -/
def resolveParticipants (s : SystemState) :
    List String → Except DriverError (List ContextParticipant)
  | [] => .ok []
  | pid :: rest =>
    match findAgent s pid with
    | none => .error (.agentNotFound pid)
    | some a =>
      match resolveParticipants s rest with
      | .error e => .error e
      | .ok l => .ok ({ id := a.id, name := a.name, type := a.type,
                        description := a.description } :: l)

/-- OpenAIService.initializeConversation (part_002 lines 98-124). -/
def initializeConversation (ds : DriverState) (s : SystemState)
    (conversation : Conversation) : Except DriverError DriverState :=
  match resolveParticipants s conversation.participants with
  | .error e => .error e
  | .ok ps =>
    let ctx : ConversationContext :=
      { topic := conversation.topic, goal := conversation.goal,
        surrounding := conversation.surrounding, participants := ps,
        messageCount := 0 }
    .ok { ds with contexts := ctxSet ds.contexts conversation.id ctx }

/-- OpenAIService.parseResponse (part_002 lines 407-423): the reply must
match `AgentName: content` (nonempty name without a colon, nonempty
content), and the named agent must be in the roster up to case and
surrounding whitespace. -/
def parseResponse (response : String) (participants : List ContextParticipant) :
    Except DriverError (String × String) :=
  match splitFirstColon response.toList with
  | none => .error .malformedResponse
  | some (name, rest) =>
    if name = [] ∨ rest = [] then .error .malformedResponse
    else
      match participants.find? (fun p =>
          trimChars (lowerChars p.name.toList) = trimChars (lowerChars name)) with
      | none => .error (.unknownSpeaker (String.mk name))
      | some agent => .ok (agent.id, String.mk (trimChars rest))

/-- OpenAIService.checkGoalAchievement (part_002 lines 256-292): formats
the last 10 messages (every sender must be in the context roster), issues
the goal-evaluation call, and interprets a reply containing `yes`
(case-insensitive) as achieved; a response without content defaults to
`no`. -/
def checkGoalAchievement (ds : DriverState) (s : SystemState)
    (conversationId : String) (goalRes : ExternalResult) :
    Except DriverError Bool :=
  if ¬ ds.hasClient then .error .apiError
  else
    match lookupCtx ds.contexts conversationId with
    | none => .error .contextNotFound
    | some context =>
      match findConv s conversationId with
      | none => .error .notFound
      | some conversation =>
        let window := lastN 10 conversation.messages
        match window.find? (fun m =>
            (context.participants.find? (fun p => p.id = m.senderId)).isNone) with
        | some m => .error (.senderNotInContext m.senderId)
        | none =>
          match goalRes with
          | .err => .error .apiError
          | .empty => .ok false
          | .reply ans => .ok (containsYes ans)

/-- OpenAIService.processMessage (part_002 lines 336-398).  One driver
step for `conversation`: ensure the context exists, increment its message
counter, format the recent window, call the provider (`gen`), parse the
reply, append it via the lifecycle manager, and every
`messageCheckThreshold` messages run the goal check (`goalRes`),
completing the conversation when achieved.  Any throw is caught by
`handleApiError`; a successful step resets the error counter.  The
`message` parameter of the TypeScript method is unused by its body and is
omitted. -/
def processMessage (gen goalRes : ExternalResult) (now : Nat)
    (ds : DriverState) (s : SystemState) (conversation : Conversation) :
    StepOutcome × DriverState × SystemState :=
  if ¬ (ds.isEnabled ∧ ds.hasClient) then (.skipped, ds, s)
  else
    match
      (match lookupCtx ds.contexts conversation.id with
       | some _ => Except.ok ds
       | none => initializeConversation ds s conversation) with
    | .error _ => (.errStep, handleApiError ds, s)
    | .ok ds1 =>
      match lookupCtx ds1.contexts conversation.id with
      | none => (.errStep, handleApiError ds1, s)
      | some context =>
        let bump : ConversationContext → ConversationContext :=
          fun c => { c with messageCount := c.messageCount + 1 }
        let ds2 := { ds1 with contexts := ctxModify ds1.contexts conversation.id bump }
        let newCount := context.messageCount + 1
        match findConv s conversation.id with
        | none => (.errStep, handleApiError ds2, s)
        | some cur =>
          let window := lastN 5 cur.messages
          if ¬ (window.all (fun m =>
              (context.participants.find? (fun p => p.id = m.senderId)).isSome)) then
            (.errStep, handleApiError ds2, s)
          else
            match gen with
            | .err => (.errStep, handleApiError ds2, s)
            | .empty => (.errStep, handleApiError ds2, s)
            | .reply content =>
              match parseResponse content context.participants with
              | .error _ => (.errStep, handleApiError ds2, s)
              | .ok (senderId, messageContent) =>
                match ConversationService.addMessage s now
                    { conversationId := conversation.id, senderId := senderId,
                      content := messageContent, recipients := .all } with
                | (.error _, s1) => (.errStep, handleApiError ds2, s1)
                | (.ok _, s1) =>
                  if newCount % ds2.messageCheckThreshold = 0 then
                    match checkGoalAchievement ds2 s1 conversation.id goalRes with
                    | .error _ => (.errStep, handleApiError ds2, s1)
                    | .ok true =>
                      match ConversationService.completeConversation s1 conversation.id true now with
                      | (.error _, s2) => (.errStep, handleApiError ds2, s2)
                      | (.ok _, s2) => (.ok, resetErrorCount ds2, s2)
                    | .ok false => (.ok, resetErrorCount ds2, s1)
                  else (.ok, resetErrorCount ds2, s1)

/-- Agent-type string used in the opening-message template
(`${agent.type}`). -/
def typeString : AgentType → String
  | .learning => "learning"
  | .assistant => "assistant"
  | .specialist => "specialist"

/-- Opening message synthesized for a conversation with no messages
(part_002 lines 315-320). -/
def openerContent (agent : Agent) (conversation : Conversation) : String :=
  "As a " ++ typeString agent.type ++
    (match agent.description with
     | some d => " who " ++ d
     | none => "") ++
    ", I'd like to begin our discussion about " ++ conversation.topic ++
    ". Our goal is to " ++ conversation.goal ++
    ". Let's work together to achieve this."

/-- Loop body of `processActiveConversations` (part_002 lines 307-325)
over the snapshot of active conversations.  `env` supplies each step's
external-call results, `k` indexes the steps, and the trace records the
conversation ids that received a driver advance (a bootstrap append or a
`processMessage` step).  A throw outside `processMessage` aborts the loop
into the surrounding catch (`handleApiError`). -/
def pacLoop (env : Nat → ExternalResult × ExternalResult) (now : Nat) :
    List Conversation → DriverState → SystemState → Nat → List String →
    DriverState × SystemState × Nat × List String
  | [], ds, s, k, tr => (ds, s, k, tr)
  | conversation :: rest, ds, s, k, tr =>
    match findConv s conversation.id with
    | none => (handleApiError ds, s, k, tr)
    | some cur =>
      if cur.messages.isEmpty then
        match conversation.participants with
        | [] => pacLoop env now rest ds s k tr
        | firstAgent :: _ =>
          match findAgent s firstAgent with
          | none => pacLoop env now rest ds s k tr
          | some agent =>
            match ConversationService.addMessage s now
                { conversationId := conversation.id, senderId := firstAgent,
                  content := openerContent agent conversation, recipients := .all } with
            | (.error _, s1) => (handleApiError ds, s1, k, tr)
            | (.ok _, s1) => pacLoop env now rest ds s1 k (tr ++ [conversation.id])
      else
        let step := processMessage (env k).1 (env k).2 now ds s conversation
        pacLoop env now rest step.2.1 step.2.2 (k + 1) (tr ++ [conversation.id])

/-- OpenAIService.processActiveConversations (part_002 lines 298-329):
no-op while disabled, otherwise one pass over the snapshot of currently
`active` conversations, bootstrapping empty ones and stepping the rest. -/
def processActiveConversations (env : Nat → ExternalResult × ExternalResult)
    (now : Nat) (ds : DriverState) (s : SystemState) (k : Nat) :
    DriverState × SystemState × Nat × List String :=
  if ¬ (ds.isEnabled ∧ ds.hasClient) then (ds, s, k, [])
  else pacLoop env now (s.conversations.filter (fun c => c.status = .active)) ds s k []

end OpenAIService

namespace BackgroundService

/-- Map.set on the in-memory `lastMessageTime` map (latest entry wins). -/
def setLast (lm : List (String × Nat)) (id : String) (t : Nat) :
    List (String × Nat) :=
  (id, t) :: lm

/-- Read of `lastMessageTime.get(id) || 0`. -/
def getLast (lm : List (String × Nat)) (id : String) : Nat :=
  (((lm.find? (fun p => p.1 = id)).map (fun p => p.2)).getD 0)

/-- Loop body of `BackgroundService.processConversations`
(backgroundService.ts lines 43-61) over the snapshot of active
conversations: a conversation is advanced only when at least
`interval` milliseconds have passed since its recorded last advance;
an empty conversation triggers `processActiveConversations`, any other
one a single `processMessage` step; either way its last-advance time is
set to `now`. -/
def sweepLoop (env : Nat → ExternalResult × ExternalResult) (now interval : Nat) :
    List Conversation → DriverState → SystemState → List (String × Nat) → Nat →
    List String → DriverState × SystemState × List (String × Nat) × Nat × List String
  | [], ds, s, lm, k, tr => (ds, s, lm, k, tr)
  | conversation :: rest, ds, s, lm, k, tr =>
    if getLast lm conversation.id + interval ≤ now then
      match findConv s conversation.id with
      | none => (ds, s, lm, k, tr)
      | some cur =>
        if cur.messages.isEmpty then
          let bulk := OpenAIService.processActiveConversations env now ds s k
          sweepLoop env now interval rest bulk.1 bulk.2.1
            (setLast lm conversation.id now) bulk.2.2.1 (tr ++ bulk.2.2.2)
        else
          let step := OpenAIService.processMessage (env k).1 (env k).2 now ds s conversation
          sweepLoop env now interval rest step.2.1 step.2.2
            (setLast lm conversation.id now) (k + 1) (tr ++ [conversation.id])
    else
      sweepLoop env now interval rest ds s lm k tr

/-- BackgroundService.processConversations (backgroundService.ts lines
36-65): one sweep over the snapshot of currently `active` conversations. -/
def processConversations (env : Nat → ExternalResult × ExternalResult)
    (now interval : Nat) (ds : DriverState) (s : SystemState)
    (lm : List (String × Nat)) (k : Nat) :
    DriverState × SystemState × List (String × Nat) × Nat × List String :=
  sweepLoop env now interval (s.conversations.filter (fun c => c.status = .active))
    ds s lm k []

/-- Scheduler bookkeeping of `BackgroundService`: whether the interval
timer is installed, the mid-sweep flag, and the per-conversation
last-advance map. -/
structure SchedulerState where
  running : Bool
  isProcessing : Bool
  lastMessageTime : List (String × Nat)
deriving DecidableEq, Repr

/-- BackgroundService.stop (backgroundService.ts lines 67-73): when the
timer is installed, clear it and the last-advance map. -/
def stop (b : SchedulerState) : SchedulerState :=
  if b.running then { running := false, isProcessing := b.isProcessing, lastMessageTime := [] }
  else b

end BackgroundService

/-! ## Helper lemmas about the repository model -/

/-- Pointwise form of a whole-list status write. -/
def statusPatch (pids : List String) (st : AgentStatus) (a : Agent) : Agent :=
  if a.id ∈ pids then { a with status := st } else a

theorem setAgentStatus_idem (a : Agent) (st : AgentStatus) :
    ({ { a with status := st } with status := st } : Agent) = { a with status := st } := rfl

theorem setStatuses_eq_map (pids : List String) (ags : List Agent) (st : AgentStatus) :
    setStatuses ags pids st = ags.map (statusPatch pids st) := by
  induction pids generalizing ags with
  | nil =>
    have h0 : ags.map (statusPatch [] st) = ags.map id :=
      List.map_congr_left (by intro a _; simp [statusPatch])
    simp [setStatuses, h0]
  | cons p ps ih =>
    have h1 : setStatuses ags (p :: ps) st = setStatuses (setAgentStatus ags p st) ps st := rfl
    rw [h1, ih, setAgentStatus, List.map_map]
    refine List.map_congr_left ?_
    intro a _
    simp only [Function.comp, statusPatch, List.mem_cons]
    by_cases hp : a.id = p
    · simp [hp]
    · simp [hp]

theorem statusPatch_id_eq (pids : List String) (st : AgentStatus) (a : Agent) :
    (statusPatch pids st a).id = a.id := by
  unfold statusPatch
  split <;> rfl

theorem statusPatch_mem (pids : List String) (st : AgentStatus) (a : Agent)
    (h : a.id ∈ pids) : statusPatch pids st a = { a with status := st } := by
  simp [statusPatch, h]

theorem statusPatch_not_mem (pids : List String) (st : AgentStatus) (a : Agent)
    (h : a.id ∉ pids) : statusPatch pids st a = a := by
  simp [statusPatch, h]

theorem checkParticipants_ok_iff (s : SystemState) (pids : List String) :
    ConversationService.checkParticipants s pids = .ok () ↔
      ∀ pid ∈ pids, ∃ a, findAgent s pid = some a ∧ a.status = .inactive := by
  induction pids with
  | nil => simp [ConversationService.checkParticipants]
  | cons p ps ih =>
    simp only [ConversationService.checkParticipants]
    cases h : findAgent s p with
    | none => simp [h]
    | some a =>
      dsimp only
      by_cases ha : a.status = .inactive
      · rw [if_neg (by simp [ha])]
        rw [ih]
        constructor
        · intro hall
          intro pid hpid
          rcases List.mem_cons.mp hpid with rfl | hmem
          · exact ⟨a, h, ha⟩
          · exact hall pid hmem
        · intro hall pid hpid
          exact hall pid (List.mem_cons_of_mem p hpid)
      · rw [if_pos ha]
        constructor
        · intro hcon
          exact Except.noConfusion hcon
        · intro hall
          rcases hall p (List.mem_cons_self p ps) with ⟨b, hb, hbst⟩
          rw [h] at hb
          cases hb
          exact absurd hbst ha

theorem checkParticipants_not_available (s : SystemState) (pids : List String)
    (hres : ∀ pid ∈ pids, (findAgent s pid).isSome)
    (hbad : ∃ pid ∈ pids, ∃ a, findAgent s pid = some a ∧ a.status = .active) :
    ∃ name, ConversationService.checkParticipants s pids =
      .error (.agentNotAvailable name) := by
  induction pids with
  | nil => rcases hbad with ⟨pid, hpid, _⟩; cases hpid
  | cons p ps ih =>
    cases h : findAgent s p with
    | none =>
      have := hres p (List.mem_cons_self p ps)
      rw [h] at this
      cases this
    | some a =>
      by_cases ha : a.status = .inactive
      · have hstep : ConversationService.checkParticipants s (p :: ps) =
            ConversationService.checkParticipants s ps := by
          simp [ConversationService.checkParticipants, h, ha]
        rw [hstep]
        apply ih
        · intro pid hpid
          exact hres pid (List.mem_cons_of_mem p hpid)
        · rcases hbad with ⟨pid, hpid, b, hb, hbst⟩
          rcases List.mem_cons.mp hpid with rfl | hmem
          · rw [h] at hb
            cases hb
            rw [ha] at hbst
            cases hbst
          · exact ⟨pid, hmem, b, hb, hbst⟩
      · refine ⟨a.name, ?_⟩
        simp [ConversationService.checkParticipants, h, ha]

theorem findConv_updateConvs (convs : List Conversation) (id : String)
    (patch : Conversation → Conversation) (hid : ∀ c, (patch c).id = c.id) :
    (updateConvs convs id patch).find? (fun c => c.id = id) =
      (convs.find? (fun c => c.id = id)).map patch := by
  induction convs with
  | nil => rfl
  | cons c cs ih =>
    by_cases hc : c.id = id
    · rw [updateConvs, List.map_cons, if_pos hc,
        List.find?_cons_of_pos _ (by simp [hid, hc]),
        List.find?_cons_of_pos _ (by simp [hc])]
      rfl
    · rw [updateConvs, List.map_cons, if_neg hc,
        List.find?_cons_of_neg _ (by simp [hc]),
        List.find?_cons_of_neg _ (by simp [hc])]
      exact ih

theorem updateConvs_comp (convs : List Conversation) (id : String)
    (f g : Conversation → Conversation) (hid : ∀ c, (f c).id = c.id) :
    updateConvs (updateConvs convs id f) id g =
      updateConvs convs id (fun c => g (f c)) := by
  unfold updateConvs
  rw [List.map_map]
  refine List.map_congr_left ?_
  intro c _
  by_cases hc : c.id = id
  · simp [Function.comp, hc, hid]
  · simp [Function.comp, hc]

theorem updateConvs_congr_id (convs : List Conversation) (id : String)
    (h : Conversation → Conversation) (hfix : ∀ c ∈ convs, c.id = id → h c = c) :
    updateConvs convs id h = convs := by
  unfold updateConvs
  have h0 : convs.map (fun c => if c.id = id then h c else c) = convs.map (fun c => c) := by
    refine List.map_congr_left ?_
    intro c hc
    by_cases hcid : c.id = id
    · simp [hcid, hfix c hc hcid]
    · simp [hcid]
  simp [h0]

theorem find?_unique_of_nodup (convs : List Conversation) (id : String)
    (conv : Conversation)
    (hnodup : (convs.map Conversation.id).Nodup)
    (hfind : convs.find? (fun c => c.id = id) = some conv) :
    ∀ c ∈ convs, c.id = id → c = conv := by
  intro c hc hcid
  have hconvmem : conv ∈ convs := List.mem_of_find?_eq_some hfind
  have hconvid : conv.id = id := by
    have := List.find?_some hfind
    simpa using this
  exact List.inj_on_of_nodup_map hnodup hc hconvmem (by rw [hcid, hconvid])

theorem conv_eta_status (conv : Conversation) (st : ConversationStatus)
    (h : conv.status = st) : ({ conv with status := st } : Conversation) = conv := by
  cases conv
  simp_all

/-! ## Concrete fixture used by the witnesses -/

def aliceW : Agent :=
  { id := "a1", name := "Alice", type := .learning, description := none,
    status := .active, createdAt := 0 }

def bobW : Agent :=
  { id := "a2", name := "Bob", type := .assistant, description := none,
    status := .active, createdAt := 0 }

def carolW : Agent :=
  { id := "a3", name := "Carol", type := .specialist, description := none,
    status := .inactive, createdAt := 0 }

def daveW : Agent :=
  { id := "a4", name := "Dave", type := .learning, description := none,
    status := .inactive, createdAt := 0 }

def msgW : Message :=
  { id := "", conversationId := "c1", senderId := "a1", content := "hi",
    recipients := ["a1", "a2"], timestamp := 1 }

def convActiveW : Conversation :=
  { id := "c1", name := "talk", topic := "t", goal := "g", surrounding := "room",
    status := .active, participants := ["a1", "a2"], messages := [msgW],
    startedAt := 0, endedAt := none, goalAchieved := some false }

def convDoneW : Conversation :=
  { id := "c2", name := "done", topic := "t2", goal := "g2", surrounding := "room",
    status := .completed, participants := ["a3"], messages := [],
    startedAt := 0, endedAt := some 2, goalAchieved := some true }

def stateW : SystemState :=
  { agents := [aliceW, bobW, carolW, daveW],
    conversations := [convActiveW, convDoneW] }

/-! ## Claim theorems -/

/-- C4: a conversation already in a terminal state (`completed` or
`terminated`) rejects both `completeConversation` and
`terminateConversation` with an illegal-transition error, and neither the
conversation store nor any agent status changes, so no transition leaves a
terminal state and participants are released exactly once. -/
theorem C4_terminal_states_reject (s : SystemState) (id : String)
    (ga : Bool) (now : Nat) (conv : Conversation)
    (hfind : findConv s id = some conv)
    (hterm : conv.status = .completed ∨ conv.status = .terminated) :
    ConversationService.completeConversation s id ga now =
      (.error (.invalidState "Conversation is not active"), s) ∧
    ConversationService.terminateConversation s id now =
      (.error (.invalidState "Only active or paused conversations can be terminated"), s) := by
  constructor
  · unfold ConversationService.completeConversation
    rw [hfind]
    rcases hterm with h | h <;> simp [h]
  · unfold ConversationService.terminateConversation
    rw [hfind]
    rcases hterm with h | h <;> simp [h]

theorem C4_terminal_states_reject_witness :
    ConversationService.completeConversation stateW "c2" true 9 =
      (.error (.invalidState "Conversation is not active"), stateW) ∧
    ConversationService.terminateConversation stateW "c2" 9 =
      (.error (.invalidState "Only active or paused conversations can be terminated"), stateW) :=
  C4_terminal_states_reject stateW "c2" true 9 convDoneW (by decide) (Or.inl rfl)

/-- C5: pausing an `active` conversation succeeds, leaves every agent
record untouched while paused, and unpausing afterwards returns the very
conversation record and the very system state the round trip started
from (participants and message history included). -/
theorem C5_pause_unpause_roundtrip (s : SystemState) (id : String)
    (conv : Conversation)
    (hnodup : (s.conversations.map Conversation.id).Nodup)
    (hfind : findConv s id = some conv) (hact : conv.status = .active) :
    (ConversationService.pauseConversation s id).1 =
        .ok { conv with status := .paused } ∧
    (ConversationService.pauseConversation s id).2.agents = s.agents ∧
    ConversationService.unpauseConversation
        (ConversationService.pauseConversation s id).2 id = (.ok conv, s) := by
  have hpause : ConversationService.pauseConversation s id =
      (.ok { conv with status := .paused },
       { s with conversations :=
           updateConvs s.conversations id (fun c => { c with status := .paused }) }) := by
    unfold ConversationService.pauseConversation
    rw [hfind]
    dsimp only
    rw [if_neg (by simp [hact])]
  refine ⟨by rw [hpause], by rw [hpause], ?_⟩
  rw [hpause]
  unfold ConversationService.unpauseConversation
  have hfind1 : findConv
      { s with conversations :=
          updateConvs s.conversations id (fun c => { c with status := .paused }) } id =
      some { conv with status := .paused } := by
    unfold findConv
    dsimp only
    rw [findConv_updateConvs s.conversations id
      (fun c => { c with status := .paused }) (fun c => rfl)]
    rw [show s.conversations.find? (fun c => c.id = id) = some conv from hfind]
    rfl
  rw [hfind1]
  dsimp only
  rw [if_neg (by simp)]
  have hcomp : updateConvs
      (updateConvs s.conversations id (fun c => { c with status := .paused })) id
      (fun c => { c with status := .active }) = s.conversations := by
    rw [updateConvs_comp s.conversations id
      (fun c => { c with status := .paused })
      (fun c => { c with status := .active }) (fun c => rfl)]
    apply updateConvs_congr_id
    intro c hc hcid
    have hceq : c = conv := find?_unique_of_nodup s.conversations id conv hnodup hfind c hc hcid
    subst hceq
    exact conv_eta_status c .active hact
  rw [hcomp]
  rw [conv_eta_status conv .active hact]

theorem C5_pause_unpause_roundtrip_witness :
    (ConversationService.pauseConversation stateW "c1").1 =
        .ok { convActiveW with status := .paused } ∧
    (ConversationService.pauseConversation stateW "c1").2.agents = stateW.agents ∧
    ConversationService.unpauseConversation
        (ConversationService.pauseConversation stateW "c1").2 "c1" =
      (.ok convActiveW, stateW) :=
  C5_pause_unpause_roundtrip stateW "c1" convActiveW (by decide) (by decide) rfl

/-- The message record that `addMessage` stores when the sentinel `all`
was supplied: recipients are the full participant list of the target
conversation. -/
def broadcastMsg (data : AddMessageDTO) (conv : Conversation) (now : Nat) : Message :=
  { id := "", conversationId := data.conversationId, senderId := data.senderId,
    content := data.content, recipients := conv.participants, timestamp := now }

/-- C3: `addMessage` fails whenever the conversation is not `active`
(in particular when `paused` or `terminated`) and leaves the state
unchanged; on an `active` conversation it fails with the
not-a-participant error when the sender is outside the roster, fails with
the invalid-recipients error when an explicit recipient is outside the
roster, and on success with the sentinel `all` it appends exactly one
message whose stored recipients are the full participant list. -/
theorem C3_addMessage_validation (s : SystemState) (now : Nat)
    (data : AddMessageDTO) (conv : Conversation)
    (hfind : findConv s data.conversationId = some conv) :
    (conv.status ≠ .active →
      ConversationService.addMessage s now data =
        (.error (.invalidState "Cannot add message to a non-active conversation"), s)) ∧
    (conv.status = .active → ¬ conv.participants.contains data.senderId →
      ConversationService.addMessage s now data = (.error .notParticipant, s)) ∧
    (∀ ids, conv.status = .active → conv.participants.contains data.senderId →
      data.recipients = .explicit ids →
      ids.filter (fun i => ¬ conv.participants.contains i) ≠ [] →
      ConversationService.addMessage s now data =
        (.error (.invalidRecipients (ids.filter (fun i => ¬ conv.participants.contains i))), s)) ∧
    (conv.status = .active → conv.participants.contains data.senderId →
      data.recipients = .all →
      ConversationService.addMessage s now data =
        (.ok (broadcastMsg data conv now),
         { s with conversations := ConversationService.repoAddMessage s.conversations data.conversationId (broadcastMsg data conv now) })) := by
  refine ⟨?_, ?_, ?_, ?_⟩
  · intro hst
    unfold ConversationService.addMessage
    rw [hfind]
    dsimp only
    rw [if_pos hst]
  · intro hst hsender
    unfold ConversationService.addMessage
    rw [hfind]
    dsimp only
    rw [if_neg (by simp [hst]), if_pos hsender]
  · intro ids hst hsender hrec hbad
    unfold ConversationService.addMessage
    rw [hfind]
    dsimp only
    rw [if_neg (by simp [hst]), if_neg (by simpa using hsender), hrec]
    dsimp only
    rw [if_pos hbad]
  · intro hst hsender hrec
    unfold ConversationService.addMessage
    rw [hfind]
    dsimp only
    rw [if_neg (by simp [hst]), if_neg (by simpa using hsender), hrec]
    rfl

def addDtoW : AddMessageDTO :=
  { conversationId := "c1", senderId := "a1", content := "hello",
    recipients := .all }

theorem C3_addMessage_validation_witness :
    findConv stateW "c1" = some convActiveW ∧
    ConversationService.addMessage stateW 5 addDtoW =
      (.ok (broadcastMsg addDtoW convActiveW 5),
       { stateW with conversations := ConversationService.repoAddMessage stateW.conversations "c1" (broadcastMsg addDtoW convActiveW 5) }) :=
  ⟨by decide,
   (C3_addMessage_validation stateW 5 addDtoW convActiveW (by decide)).2.2.2
     rfl (by decide) rfl⟩

/-- The conversation record persisted by a successful
`createConversation` call: fresh id, `active`, no messages, the achieved
flag initialised to false. -/
def newConv (newId : String) (now : Nat) (data : CreateConversationDTO) : Conversation :=
  { id := newId, name := data.name, topic := data.topic, goal := data.goal,
    surrounding := data.surrounding, status := .active,
    participants := data.participantIds, messages := [], startedAt := now,
    endedAt := none, goalAchieved := some false }

/-- C2: when the name is free, the participant count is in range and every
participant id resolves, a `createConversation` call with some
participant not `inactive` fails with the agent-not-available error and
returns the store exactly as it was (all-or-nothing - no agent and no
conversation record changes); when every participant is `inactive`, the
call persists the conversation `active` with an empty message list and
flips exactly the participating agents to `active`. -/
theorem C2_create_reservation (s : SystemState) (newId : String) (now : Nat)
    (data : CreateConversationDTO)
    (hname : findConvByName s data.name = none)
    (hlo : 2 ≤ data.participantIds.length)
    (hhi : data.participantIds.length ≤ 10)
    (hres : ∀ pid ∈ data.participantIds, (findAgent s pid).isSome) :
    ((∃ pid ∈ data.participantIds, ∃ a, findAgent s pid = some a ∧ a.status = .active) →
      ∃ nm, ConversationService.createConversation s newId now data =
        (.error (.agentNotAvailable nm), s)) ∧
    ((∀ pid ∈ data.participantIds, ∃ a, findAgent s pid = some a ∧ a.status = .inactive) →
      ConversationService.createConversation s newId now data =
        (.ok (newConv newId now data),
         { agents := s.agents.map (statusPatch data.participantIds .active),
           conversations := s.conversations ++ [newConv newId now data] })) := by
  have hcount : ¬ (data.participantIds.length < 2 ∨ data.participantIds.length > 10) := by
    omega
  constructor
  · intro hbad
    obtain ⟨nm, hcp⟩ := checkParticipants_not_available s data.participantIds hres hbad
    refine ⟨nm, ?_⟩
    unfold ConversationService.createConversation
    rw [if_neg (by simp [hname]), if_neg hcount, hcp]
  · intro hok
    have hcp : ConversationService.checkParticipants s data.participantIds = .ok () :=
      (checkParticipants_ok_iff s data.participantIds).mpr hok
    unfold ConversationService.createConversation
    rw [if_neg (by simp [hname]), if_neg hcount, hcp]
    dsimp only
    rw [setStatuses_eq_map]
    rfl

def createDtoW : CreateConversationDTO :=
  { name := "fresh", topic := "t", goal := "g", surrounding := "room",
    participantIds := ["a3", "a4"] }

theorem C2_create_reservation_witness :
    ConversationService.createConversation stateW "c9" 7 createDtoW =
      (.ok (newConv "c9" 7 createDtoW),
       { agents := stateW.agents.map (statusPatch createDtoW.participantIds .active),
         conversations := stateW.conversations ++ [newConv "c9" 7 createDtoW] }) :=
  (C2_create_reservation stateW "c9" 7 createDtoW (by decide) (by decide)
    (by decide) (by decide)).2 (by decide)

theorem pauseAll_foldl_char (acts : List Conversation) (s : SystemState) :
    acts.foldl
      (fun st c => { st with conversations := updateConvs st.conversations c.id (fun x => { x with status := .paused }) })
      s =
    { s with conversations := s.conversations.map (fun c => if c.id ∈ acts.map Conversation.id then { c with status := .paused } else c) } := by
  induction acts generalizing s with
  | nil =>
    have h0 : s.conversations.map
        (fun c => if c.id ∈ (([] : List Conversation).map Conversation.id) then { c with status := .paused } else c) =
        s.conversations.map (fun c => c) :=
      List.map_congr_left (by intro c _; simp)
    simp [h0]
  | cons a as ih =>
    rw [List.foldl_cons, ih]
    dsimp only
    congr 1
    rw [updateConvs, List.map_map]
    refine List.map_congr_left ?_
    intro c _
    simp only [Function.comp, List.map_cons, List.mem_cons]
    by_cases hc : c.id = a.id
    · by_cases hcs : c.id ∈ as.map Conversation.id
      · simp [hc, hcs]
      · simp [hc, hcs]
    · by_cases hcs : c.id ∈ as.map Conversation.id
      · simp [hc, hcs]
      · simp [hc, hcs]

/-- C9: `pauseAllConversations` leaves every agent record untouched and
updates exactly the conversations whose status is currently `active` to
`paused`, each through its own repository update; every other
conversation is unchanged. -/
theorem C9_pauseAll_active (s : SystemState)
    (hnodup : (s.conversations.map Conversation.id).Nodup) :
    (ConversationService.pauseAllConversations s).agents = s.agents ∧
    (ConversationService.pauseAllConversations s).conversations =
      s.conversations.map (fun c => if c.status = .active then { c with status := .paused } else c) := by
  unfold ConversationService.pauseAllConversations
  rw [pauseAll_foldl_char]
  refine ⟨rfl, ?_⟩
  dsimp only
  refine List.map_congr_left ?_
  intro c hc
  by_cases hact : c.status = .active
  · rw [if_pos ?_, if_pos hact]
    exact List.mem_map.mpr ⟨c, List.mem_filter.mpr ⟨hc, by simp [hact]⟩, rfl⟩
  · rw [if_neg ?_, if_neg hact]
    intro hmem
    obtain ⟨c', hc', hcid⟩ := List.mem_map.mp hmem
    have hc'mem : c' ∈ s.conversations := (List.mem_filter.mp hc').1
    have hc'act : c'.status = .active := by
      have := (List.mem_filter.mp hc').2
      simpa using this
    have : c' = c := List.inj_on_of_nodup_map hnodup hc'mem hc hcid
    rw [this] at hc'act
    exact hact hc'act

theorem C9_pauseAll_active_witness :
    (ConversationService.pauseAllConversations stateW).agents = stateW.agents ∧
    (ConversationService.pauseAllConversations stateW).conversations =
      stateW.conversations.map (fun c => if c.status = .active then { c with status := .paused } else c) :=
  C9_pauseAll_active stateW (by decide)

def emptyStateW : SystemState := { agents := [], conversations := [] }

/-- The agent record persisted by a successful `createAgent` call with no
status override. -/
def freshAgent (newId : String) (now : Nat) (data : CreateAgentDTO) : Agent :=
  { id := newId, name := data.name, type := data.type,
    description := data.description, status := .inactive, createdAt := now }

/-- C8 counterexample: the claim states that every successfully created
agent has status `inactive`, but `createAgent` persists
`data.status || 'inactive'`, so a DTO carrying an explicit `active`
status is accepted and yields an `active` agent. -/
theorem C8_createAgent_counterexample :
    (AgentService.createAgent emptyStateW "x1" 0
        { name := "Eve", type := .assistant, status := some .active,
          description := none }).1 =
      .ok { id := "x1", name := "Eve", type := .assistant, description := none,
            status := .active, createdAt := 0 } ∧
    ({ id := "x1", name := "Eve", type := .assistant, description := none,
       status := .active, createdAt := 0 } : Agent).status ≠ .inactive :=
  ⟨rfl, by decide⟩

/-- C8 (amended): `createAgent` fails with the invalid-input error when
the name is shorter than 3 characters, fails with the duplicate-name
error when the name is already taken (case-sensitive exact match), and an
agent created without an explicit status override in the DTO starts
`inactive`. -/
theorem C8_createAgent_amended (s : SystemState) (newId : String) (now : Nat)
    (data : CreateAgentDTO) :
    (data.name.length < 3 →
      AgentService.createAgent s newId now data = (.error .invalidInput, s)) ∧
    (3 ≤ data.name.length → AgentService.isNameTaken s data.name = true →
      AgentService.createAgent s newId now data = (.error .duplicateName, s)) ∧
    (3 ≤ data.name.length → AgentService.isNameTaken s data.name = false →
      data.status = none →
      AgentService.createAgent s newId now data =
        (.ok (freshAgent newId now data),
         { s with agents := s.agents ++ [freshAgent newId now data] })) := by
  refine ⟨?_, ?_, ?_⟩
  · intro h
    unfold AgentService.createAgent
    rw [if_pos h]
  · intro h1 h2
    unfold AgentService.createAgent
    rw [if_neg (by omega), if_pos h2]
  · intro h1 h2 hst
    unfold AgentService.createAgent
    rw [if_neg (by omega), if_neg (by simp [h2]), hst]
    rfl

def agentDtoW : CreateAgentDTO :=
  { name := "Eve", type := .assistant, status := none, description := none }

theorem C8_createAgent_amended_witness :
    AgentService.createAgent emptyStateW "x1" 4 agentDtoW =
      (.ok (freshAgent "x1" 4 agentDtoW),
       { emptyStateW with agents := emptyStateW.agents ++ [freshAgent "x1" 4 agentDtoW] }) :=
  (C8_createAgent_amended emptyStateW "x1" 4 agentDtoW).2.2 (by decide) (by decide) rfl

theorem lookupCtx_ctxModify (ctxs : List (String × ConversationContext))
    (id : String) (f : ConversationContext → ConversationContext) :
    lookupCtx (ctxModify ctxs id f) id = (lookupCtx ctxs id).map f := by
  unfold lookupCtx ctxModify
  induction ctxs with
  | nil => rfl
  | cons p ps ih =>
    by_cases hp : p.1 = id
    · rw [List.map_cons, List.find?_cons_of_pos _ (by simp [hp]),
        List.find?_cons_of_pos _ (by simp [hp])]
      simp [hp]
    · rw [List.map_cons, List.find?_cons_of_neg _ (by simp [hp]),
        List.find?_cons_of_neg _ (by simp [hp])]
      exact ih

theorem handleApiError_contexts (ds : DriverState) :
    (OpenAIService.handleApiError ds).contexts = ds.contexts := by
  unfold OpenAIService.handleApiError OpenAIService.disableService
  dsimp only
  split <;> rfl

theorem resetErrorCount_contexts (ds : DriverState) :
    (OpenAIService.resetErrorCount ds).contexts = ds.contexts := rfl

/-- C10: a `processMessage` step on an enabled driver whose context cache
already holds the conversation increments that cached context's
`messageCount` by exactly one, at the start of the step - the counter
advances no matter how the external generation call, the reply parsing or
the goal check turn out, so the every-Nth goal-check cadence moves even
on failed steps. -/
theorem C10_messageCount_increment (gen goalRes : ExternalResult) (now : Nat)
    (ds : DriverState) (s : SystemState) (conversation : Conversation)
    (ctx : ConversationContext)
    (hen : ds.isEnabled = true) (hcl : ds.hasClient = true)
    (hctx : lookupCtx ds.contexts conversation.id = some ctx) :
    lookupCtx (OpenAIService.processMessage gen goalRes now ds s conversation).2.1.contexts
        conversation.id =
      some { ctx with messageCount := ctx.messageCount + 1 } := by
  have hmod : lookupCtx
      (ctxModify ds.contexts conversation.id
        (fun c => { c with messageCount := c.messageCount + 1 })) conversation.id =
      some { ctx with messageCount := ctx.messageCount + 1 } := by
    rw [lookupCtx_ctxModify, hctx]
    rfl
  unfold OpenAIService.processMessage
  rw [if_neg (by simp [hen, hcl]), hctx]
  dsimp only
  rw [hctx]
  dsimp only
  repeat' split
  all_goals
    simp only [handleApiError_contexts, resetErrorCount_contexts]
  all_goals exact hmod

def ctxW : ConversationContext :=
  { topic := "t", goal := "g", surrounding := "room",
    participants := [⟨"a1", "Alice", .learning, none⟩, ⟨"a2", "Bob", .assistant, none⟩],
    messageCount := 3 }

def driverW : DriverState :=
  { hasClient := true, contexts := [("c1", ctxW)], messageCheckThreshold := 50,
    consecutiveErrors := 0, maxConsecutiveErrors := 10, isEnabled := true,
    disabledReason := none }

theorem C10_messageCount_increment_witness :
    lookupCtx (OpenAIService.processMessage .err .err 5 driverW stateW convActiveW).2.1.contexts
        "c1" =
      some { ctxW with messageCount := ctxW.messageCount + 1 } :=
  C10_messageCount_increment .err .err 5 driverW stateW convActiveW ctxW rfl rfl (by decide)

theorem handleApiError_spec (ds : DriverState) (hen : ds.isEnabled = true) :
    (OpenAIService.handleApiError ds).consecutiveErrors = ds.consecutiveErrors + 1 ∧
    ((OpenAIService.handleApiError ds).isEnabled = false ↔
      ds.consecutiveErrors + 1 ≥ ds.maxConsecutiveErrors) ∧
    (ds.consecutiveErrors + 1 ≥ ds.maxConsecutiveErrors →
      (OpenAIService.handleApiError ds).disabledReason =
        some "Too many consecutive API errors. Service temporarily disabled.") := by
  unfold OpenAIService.handleApiError OpenAIService.disableService
  dsimp only
  by_cases h : ds.consecutiveErrors + 1 ≥ ds.maxConsecutiveErrors
  · rw [if_pos h]
    exact ⟨rfl, by simp [h], fun _ => rfl⟩
  · rw [if_neg h]
    exact ⟨rfl, by simp [hen, h], fun hc => absurd hc h⟩

theorem handleApiError_spec2 (ds0 dsx : DriverState)
    (hc : dsx.consecutiveErrors = ds0.consecutiveErrors)
    (hm : dsx.maxConsecutiveErrors = ds0.maxConsecutiveErrors)
    (he : dsx.isEnabled = true) :
    (OpenAIService.handleApiError dsx).consecutiveErrors = ds0.consecutiveErrors + 1 ∧
    ((OpenAIService.handleApiError dsx).isEnabled = false ↔
      ds0.consecutiveErrors + 1 ≥ ds0.maxConsecutiveErrors) ∧
    (ds0.consecutiveErrors + 1 ≥ ds0.maxConsecutiveErrors →
      (OpenAIService.handleApiError dsx).disabledReason =
        some "Too many consecutive API errors. Service temporarily disabled.") := by
  obtain ⟨h1, h2, h3⟩ := handleApiError_spec dsx he
  refine ⟨by rw [h1, hc], by rw [h2, hc, hm], ?_⟩
  intro hge
  exact h3 (by rw [hc, hm]; exact hge)

theorem parseResponse_no_colon (c : String) (h : splitFirstColon c.toList = none)
    (ps : List ContextParticipant) :
    OpenAIService.parseResponse c ps = .error .malformedResponse := by
  unfold OpenAIService.parseResponse
  rw [h]

theorem lookupCtx_ctxSet (ctxs : List (String × ConversationContext)) (id : String)
    (ctx : ConversationContext) :
    lookupCtx (ctxSet ctxs id ctx) id = some ctx := by
  unfold lookupCtx ctxSet
  rw [List.find?_cons_of_pos _ (by simp)]
  rfl

/-- The participant roster a `processMessage` step parses the reply
against: the cached context's roster when the context is already present,
otherwise the roster that `initializeConversation` resolves from the
conversation's participants. -/
def driverRoster (ds : DriverState) (s : SystemState) (conversation : Conversation) :
    Except DriverError (List ContextParticipant) :=
  match lookupCtx ds.contexts conversation.id with
  | some ctx => .ok ctx.participants
  | none => OpenAIService.resolveParticipants s conversation.participants

/-- C7 (amended): on an enabled driver, every failed `processMessage`
step increments the consecutive-error counter by exactly one and the
driver becomes disabled, with the human-readable reason recorded, exactly
when the incremented counter reaches the configured threshold; every
successful step resets the counter to zero; a step that fails in the
external generation call itself leaves the conversation and agent store
untouched, and so does every response-parsing failure - a reply with no
colon at all, and any reply the driver's actual roster rejects
(malformed name or content, or an unknown speaker).  (A failure in the
separate goal-check call happens after the generated message was
appended and leaves that append in place - see the counterexample.) -/
theorem C7_error_counter (gen goalRes : ExternalResult) (now : Nat)
    (ds : DriverState) (s : SystemState) (conversation : Conversation)
    (hen : ds.isEnabled = true) (hcl : ds.hasClient = true) :
    ((OpenAIService.processMessage gen goalRes now ds s conversation).1 = .errStep →
      (OpenAIService.processMessage gen goalRes now ds s conversation).2.1.consecutiveErrors =
          ds.consecutiveErrors + 1 ∧
      ((OpenAIService.processMessage gen goalRes now ds s conversation).2.1.isEnabled = false ↔
        ds.consecutiveErrors + 1 ≥ ds.maxConsecutiveErrors) ∧
      (ds.consecutiveErrors + 1 ≥ ds.maxConsecutiveErrors →
        (OpenAIService.processMessage gen goalRes now ds s conversation).2.1.disabledReason =
          some "Too many consecutive API errors. Service temporarily disabled.")) ∧
    ((OpenAIService.processMessage gen goalRes now ds s conversation).1 = .ok →
      (OpenAIService.processMessage gen goalRes now ds s conversation).2.1.consecutiveErrors = 0) ∧
    ((gen = .err ∨ gen = .empty) →
      (OpenAIService.processMessage gen goalRes now ds s conversation).1 = .errStep ∧
      (OpenAIService.processMessage gen goalRes now ds s conversation).2.2 = s) ∧
    (∀ c, gen = .reply c → splitFirstColon c.toList = none →
      (OpenAIService.processMessage gen goalRes now ds s conversation).1 = .errStep ∧
      (OpenAIService.processMessage gen goalRes now ds s conversation).2.2 = s) ∧
    (∀ c ps e, gen = .reply c →
      driverRoster ds s conversation = .ok ps →
      OpenAIService.parseResponse c ps = .error e →
      (OpenAIService.processMessage gen goalRes now ds s conversation).1 = .errStep ∧
      (OpenAIService.processMessage gen goalRes now ds s conversation).2.2 = s) := by
  refine ⟨?_, ?_, ?_, ?_, ?_⟩
  · unfold OpenAIService.processMessage
    rw [if_neg (by simp [hen, hcl])]
    cases hl : lookupCtx ds.contexts conversation.id with
    | none =>
      unfold OpenAIService.initializeConversation
      cases hres : OpenAIService.resolveParticipants s conversation.participants with
      | error e =>
        dsimp only
        intro _
        exact handleApiError_spec2 ds ds rfl rfl hen
      | ok ps =>
        dsimp only
        repeat' split
        all_goals intro h
        all_goals first
          | exact StepOutcome.noConfusion h
          | exact handleApiError_spec2 ds _ rfl rfl hen
    | some ctx0 =>
      dsimp only
      repeat' split
      all_goals intro h
      all_goals first
        | exact StepOutcome.noConfusion h
        | exact handleApiError_spec2 ds _ rfl rfl hen
  · unfold OpenAIService.processMessage
    rw [if_neg (by simp [hen, hcl])]
    dsimp only
    repeat' split
    all_goals intro h
    all_goals first
      | exact StepOutcome.noConfusion h
      | rfl
  · intro hgen
    unfold OpenAIService.processMessage
    rw [if_neg (by simp [hen, hcl])]
    rcases hgen with rfl | rfl
    all_goals dsimp only
    all_goals repeat' split
    all_goals exact ⟨rfl, rfl⟩
  · intro c hgen hsplit
    subst hgen
    unfold OpenAIService.processMessage
    rw [if_neg (by simp [hen, hcl])]
    simp only [parseResponse_no_colon c hsplit]
    try dsimp only
    repeat' split
    all_goals exact ⟨rfl, rfl⟩
  · intro c ps e hgen hro hpe
    subst hgen
    unfold OpenAIService.processMessage
    rw [if_neg (by simp [hen, hcl])]
    cases hl : lookupCtx ds.contexts conversation.id with
    | some ctx =>
      have hps : ctx.participants = ps := by
        unfold driverRoster at hro
        rw [hl] at hro
        cases hro
        rfl
      try dsimp only
      simp only [hl]
      try dsimp only
      simp only [hps, hpe]
      try dsimp only
      repeat' split
      all_goals exact ⟨rfl, rfl⟩
    | none =>
      have hres : OpenAIService.resolveParticipants s conversation.participants = .ok ps := by
        unfold driverRoster at hro
        rw [hl] at hro
        exact hro
      unfold OpenAIService.initializeConversation
      rw [hres]
      try dsimp only
      simp only [lookupCtx_ctxSet]
      try dsimp only
      simp only [hpe]
      try dsimp only
      repeat' split
      all_goals exact ⟨rfl, rfl⟩

def driver7W : DriverState :=
  { hasClient := true, contexts := [("c1", ctxW)], messageCheckThreshold := 1,
    consecutiveErrors := 0, maxConsecutiveErrors := 10, isEnabled := true,
    disabledReason := none }

theorem C7_error_counter_witness :
    (OpenAIService.processMessage .err .err 5 driver7W stateW convActiveW).1 = .errStep ∧
    (OpenAIService.processMessage .err .err 5 driver7W stateW convActiveW).2.1.consecutiveErrors =
        driver7W.consecutiveErrors + 1 ∧
    (OpenAIService.processMessage .err .err 5 driver7W stateW convActiveW).2.2 = stateW ∧
    (OpenAIService.processMessage (.reply "Zed: hi") .err 5 driver7W stateW convActiveW).1 =
        .errStep ∧
    (OpenAIService.processMessage (.reply "Zed: hi") .err 5 driver7W stateW convActiveW).2.2 =
        stateW :=
  ⟨rfl,
   ((C7_error_counter .err .err 5 driver7W stateW convActiveW rfl rfl).1 rfl).1,
   ((C7_error_counter .err .err 5 driver7W stateW convActiveW rfl rfl).2.2.1 (Or.inl rfl)).2,
   ((C7_error_counter (.reply "Zed: hi") .err 5 driver7W stateW convActiveW rfl rfl).2.2.2.2
      "Zed: hi" ctxW.participants (.unknownSpeaker "Zed") rfl rfl (by rfl)).1,
   ((C7_error_counter (.reply "Zed: hi") .err 5 driver7W stateW convActiveW rfl rfl).2.2.2.2
      "Zed: hi" ctxW.participants (.unknownSpeaker "Zed") rfl rfl (by rfl)).2⟩

/-- C7 counterexample: the claim states that every failed step leaves
conversation state untouched, but a step whose generation call and parse
succeed and whose goal-check call then throws is a failed step (the
counter increments) that has already appended the generated message: the
resulting store differs from the initial one. -/
theorem C7_partial_write_counterexample :
    (OpenAIService.processMessage (.reply "Alice: hi") .err 5 driver7W stateW convActiveW).1 =
        .errStep ∧
    (OpenAIService.processMessage (.reply "Alice: hi") .err 5 driver7W stateW convActiveW).2.1.consecutiveErrors = 1 ∧
    (OpenAIService.processMessage (.reply "Alice: hi") .err 5 driver7W stateW convActiveW).2.2 ≠
        stateW ∧
    ((findConv (OpenAIService.processMessage (.reply "Alice: hi") .err 5 driver7W stateW convActiveW).2.2 "c1").map (fun c => c.messages.length)) = some 2 := by
  refine ⟨by decide, by decide, by decide, by decide⟩

def convAW : Conversation :=
  { id := "A", name := "convA", topic := "tA", goal := "gA", surrounding := "s",
    status := .active, participants := ["a1", "a2"], messages := [],
    startedAt := 0, endedAt := none, goalAchieved := some false }

def msgBW : Message :=
  { id := "", conversationId := "B", senderId := "b1", content := "hi",
    recipients := ["b1"], timestamp := 0 }

def convBW : Conversation :=
  { id := "B", name := "convB", topic := "tB", goal := "gB", surrounding := "s",
    status := .active, participants := ["b1"], messages := [msgBW],
    startedAt := 0, endedAt := none, goalAchieved := some false }

def stateC6W : SystemState :=
  { agents :=
      [{ id := "a1", name := "Ann", type := .learning, description := none,
         status := .active, createdAt := 0 },
       { id := "a2", name := "Al", type := .assistant, description := none,
         status := .active, createdAt := 0 },
       { id := "b1", name := "Bea", type := .specialist, description := none,
         status := .active, createdAt := 0 }],
    conversations := [convAW, convBW] }

def driverC6W : DriverState :=
  { hasClient := true, contexts := [], messageCheckThreshold := 50,
    consecutiveErrors := 0, maxConsecutiveErrors := 10, isEnabled := true,
    disabledReason := none }

/-- External environment for the C6 run: every generation call returns a
reply without a colon (unparsable), every goal call throws. -/
def envBadW : Nat → ExternalResult × ExternalResult :=
  fun _ => (.reply "nocolon", .err)

/-- C6: evaluation of one scheduler sweep on the failing input.  With two
eligible `active` conversations - `A` holding no messages and `B` holding
one - conversation `B` receives two Generation Driver steps in the single
sweep: one from the `processActiveConversations` bulk call that the
empty conversation `A` triggers, and a second one from `B`'s own loop
iteration.  This contradicts the claim that each eligible conversation
receives exactly one Generation Driver step per sweep. -/
theorem C6_sweep_double_step :
    (BackgroundService.processConversations envBadW 100 5 driverC6W stateC6W [] 0).2.2.2.2 =
      ["A", "B", "B"] ∧
    ((BackgroundService.processConversations envBadW 100 5 driverC6W stateC6W [] 0).2.2.2.2.filter
      (fun i => i = "B")).length = 2 := by
  refine ⟨by decide, by decide⟩

/-- Non-terminal conversation statuses: `active` or `paused`. -/
def nonTerminal (c : Conversation) : Prop :=
  c.status = .active ∨ c.status = .paused

/-- The reservation invariant of the spec: an agent is `active` exactly
when some non-terminal conversation lists it as a participant. -/
def AgentReservationInv (s : SystemState) : Prop :=
  ∀ a ∈ s.agents,
    (a.status = .active ↔ ∃ c ∈ s.conversations, nonTerminal c ∧ a.id ∈ c.participants)

/-- Strengthening used in the induction: a participant id belongs to at
most one non-terminal conversation. -/
def AtMostOneReserving (s : SystemState) : Prop :=
  ∀ c1 ∈ s.conversations, ∀ c2 ∈ s.conversations, nonTerminal c1 → nonTerminal c2 →
    (∃ x, x ∈ c1.participants ∧ x ∈ c2.participants) → c1 = c2

/-- Inductive invariant: the reservation invariant, uniqueness of the
reserving conversation, and distinctness of the repository-assigned
conversation ids. -/
def GoodState (s : SystemState) : Prop :=
  AgentReservationInv s ∧ AtMostOneReserving s ∧ (s.conversations.map Conversation.id).Nodup

/-- One lifecycle call, successful or rejected: `createConversation` with
a repository-fresh id, `completeConversation`, or
`terminateConversation`. -/
inductive Step : SystemState → SystemState → Prop where
  | create (s : SystemState) (newId : String) (now : Nat) (data : CreateConversationDTO)
      (hfresh : newId ∉ s.conversations.map Conversation.id) :
      Step s (ConversationService.createConversation s newId now data).2
  | complete (s : SystemState) (id : String) (ga : Bool) (now : Nat) :
      Step s (ConversationService.completeConversation s id ga now).2
  | terminate (s : SystemState) (id : String) (now : Nat) :
      Step s (ConversationService.terminateConversation s id now).2

/-- States reachable from a store holding only `inactive` agents and no
conversations through sequences of create/complete/terminate calls. -/
inductive Reachable : SystemState → Prop where
  | init (agents : List Agent) (h : ∀ a ∈ agents, a.status = .inactive) :
      Reachable { agents := agents, conversations := [] }
  | step (s s2 : SystemState) (hr : Reachable s) (hs : Step s s2) : Reachable s2

theorem finish_preserves_good (s : SystemState) (id : String) (c0 : Conversation)
    (patch : Conversation → Conversation)
    (hgood : GoodState s)
    (hfind : findConv s id = some c0)
    (hnt : nonTerminal c0)
    (hpid : ∀ c, (patch c).id = c.id)
    (hpnt : ∀ c, ¬ nonTerminal (patch c)) :
    GoodState { agents := setStatuses s.agents c0.participants .inactive,
                conversations := updateConvs s.conversations id patch } := by
  obtain ⟨hinv, hone, hnodup⟩ := hgood
  have hc0mem : c0 ∈ s.conversations := List.mem_of_find?_eq_some hfind
  have hc0id : c0.id = id := by simpa using List.find?_some hfind
  refine ⟨?_, ?_, ?_⟩
  · rw [AgentReservationInv]
    dsimp only
    rw [setStatuses_eq_map]
    intro a' ha'
    obtain ⟨a, ha, rfl⟩ := List.mem_map.mp ha'
    by_cases hid : a.id ∈ c0.participants
    · rw [statusPatch_mem _ _ _ hid]
      constructor
      · intro hcon
        exact absurd hcon (by simp)
      · rintro ⟨c', hc', hcnt, hcp⟩
        simp only [updateConvs] at hc'
        obtain ⟨c, hc, rfl⟩ := List.mem_map.mp hc'
        by_cases hcid : c.id = id
        · simp only [if_pos hcid] at hcnt
          exact absurd hcnt (hpnt c)
        · simp only [if_neg hcid] at hcnt hcp
          have hceq : c = c0 := hone c hc c0 hc0mem hcnt hnt ⟨a.id, hcp, hid⟩
          rw [hceq] at hcid
          exact absurd hc0id hcid
    · rw [statusPatch_not_mem _ _ _ hid]
      rw [hinv a ha]
      constructor
      · rintro ⟨c, hc, hcnt, hcp⟩
        by_cases hcid : c.id = id
        · have hceq : c = c0 :=
            find?_unique_of_nodup s.conversations id c0 hnodup hfind c hc hcid
          rw [hceq] at hcp
          exact absurd hcp hid
        · refine ⟨c, ?_, hcnt, hcp⟩
          simp only [updateConvs]
          exact List.mem_map.mpr ⟨c, hc, by rw [if_neg hcid]⟩
      · rintro ⟨c', hc', hcnt, hcp⟩
        simp only [updateConvs] at hc'
        obtain ⟨c, hc, rfl⟩ := List.mem_map.mp hc'
        by_cases hcid : c.id = id
        · simp only [if_pos hcid] at hcnt
          exact absurd hcnt (hpnt c)
        · simp only [if_neg hcid] at hcnt hcp
          exact ⟨c, hc, hcnt, hcp⟩
  · intro c1' h1 c2' h2 hnt1 hnt2 hshare
    simp only [updateConvs] at h1 h2
    obtain ⟨c1, hc1, rfl⟩ := List.mem_map.mp h1
    obtain ⟨c2, hc2, rfl⟩ := List.mem_map.mp h2
    by_cases h1id : c1.id = id
    · simp only [if_pos h1id] at hnt1
      exact absurd hnt1 (hpnt c1)
    · simp only [if_neg h1id] at hnt1 hshare ⊢
      by_cases h2id : c2.id = id
      · simp only [if_pos h2id] at hnt2
        exact absurd hnt2 (hpnt c2)
      · simp only [if_neg h2id] at hnt2 hshare ⊢
        exact hone c1 hc1 c2 hc2 hnt1 hnt2 hshare
  · have hids : (updateConvs s.conversations id patch).map Conversation.id =
        s.conversations.map Conversation.id := by
      simp only [updateConvs, List.map_map]
      refine List.map_congr_left ?_
      intro c _
      by_cases hcid : c.id = id
      · simp [Function.comp, hcid, hpid]
      · simp [Function.comp, hcid]
    rw [hids]
    exact hnodup

theorem create_preserves_good (s : SystemState) (newId : String) (now : Nat)
    (data : CreateConversationDTO) (hgood : GoodState s)
    (hfresh : newId ∉ s.conversations.map Conversation.id) :
    GoodState (ConversationService.createConversation s newId now data).2 := by
  obtain ⟨hinv, hone, hnodup⟩ := hgood
  unfold ConversationService.createConversation
  by_cases h1 : (findConvByName s data.name).isSome
  · rw [if_pos h1]
    exact ⟨hinv, hone, hnodup⟩
  rw [if_neg h1]
  by_cases h2 : data.participantIds.length < 2 ∨ data.participantIds.length > 10
  · rw [if_pos h2]
    exact ⟨hinv, hone, hnodup⟩
  rw [if_neg h2]
  cases hcp : ConversationService.checkParticipants s data.participantIds with
  | error e =>
    exact ⟨hinv, hone, hnodup⟩
  | ok u =>
    cases u
    dsimp only
    have hall := (checkParticipants_ok_iff s data.participantIds).mp hcp
    refine ⟨?_, ?_, ?_⟩
    · rw [AgentReservationInv]
      dsimp only
      rw [setStatuses_eq_map]
      intro a' ha'
      obtain ⟨a, ha, rfl⟩ := List.mem_map.mp ha'
      by_cases hid : a.id ∈ data.participantIds
      · rw [statusPatch_mem _ _ _ hid]
        refine iff_of_true rfl ?_
        refine ⟨newConv newId now data, ?_, Or.inl rfl, hid⟩
        exact List.mem_append.mpr (Or.inr (by simp [newConv]))
      · rw [statusPatch_not_mem _ _ _ hid]
        rw [hinv a ha]
        constructor
        · rintro ⟨c, hc, hcnt, hcp2⟩
          exact ⟨c, List.mem_append.mpr (Or.inl hc), hcnt, hcp2⟩
        · rintro ⟨c, hc, hcnt, hcp2⟩
          rcases List.mem_append.mp hc with hold | hnew
          · exact ⟨c, hold, hcnt, hcp2⟩
          · rw [List.mem_singleton] at hnew
            subst hnew
            exact absurd hcp2 hid
    · rintro c1 h1c c2 h2c hnt1 hnt2 ⟨x, hx1, hx2⟩
      rcases List.mem_append.mp h1c with h1o | h1n
      · rcases List.mem_append.mp h2c with h2o | h2n
        · exact hone c1 h1o c2 h2o hnt1 hnt2 ⟨x, hx1, hx2⟩
        · rw [List.mem_singleton] at h2n
          subst h2n
          obtain ⟨ag, hag, hagst⟩ := hall x hx2
          have hagmem : ag ∈ s.agents := List.mem_of_find?_eq_some hag
          have hagid : ag.id = x := by simpa using List.find?_some hag
          have : ag.status = .active :=
            (hinv ag hagmem).mpr ⟨c1, h1o, hnt1, by rw [hagid]; exact hx1⟩
          rw [hagst] at this
          cases this
      · rw [List.mem_singleton] at h1n
        subst h1n
        rcases List.mem_append.mp h2c with h2o | h2n
        · obtain ⟨ag, hag, hagst⟩ := hall x hx1
          have hagmem : ag ∈ s.agents := List.mem_of_find?_eq_some hag
          have hagid : ag.id = x := by simpa using List.find?_some hag
          have : ag.status = .active :=
            (hinv ag hagmem).mpr ⟨c2, h2o, hnt2, by rw [hagid]; exact hx2⟩
          rw [hagst] at this
          cases this
        · rw [List.mem_singleton] at h2n
          subst h2n
          rfl
    · simp only [List.map_append, List.map_cons, List.map_nil]
      rw [List.nodup_append]
      refine ⟨hnodup, List.nodup_singleton _, ?_⟩
      intro x hx hx'
      rw [List.mem_singleton] at hx'
      subst hx'
      exact hfresh hx

theorem complete_preserves_good (s : SystemState) (id : String) (ga : Bool)
    (now : Nat) (hgood : GoodState s) :
    GoodState (ConversationService.completeConversation s id ga now).2 := by
  unfold ConversationService.completeConversation
  cases hf : findConv s id with
  | none => exact hgood
  | some conversation =>
    dsimp only
    by_cases hst : conversation.status ≠ .active
    · rw [if_pos hst]
      exact hgood
    · rw [if_neg hst]
      have hact : conversation.status = .active := not_not.mp hst
      exact finish_preserves_good s id conversation _ hgood hf (Or.inl hact)
        (fun c => rfl) (fun c => by simp [nonTerminal])

theorem terminate_preserves_good (s : SystemState) (id : String)
    (now : Nat) (hgood : GoodState s) :
    GoodState (ConversationService.terminateConversation s id now).2 := by
  unfold ConversationService.terminateConversation
  cases hf : findConv s id with
  | none => exact hgood
  | some conversation =>
    dsimp only
    by_cases hst : conversation.status ≠ .active ∧ conversation.status ≠ .paused
    · rw [if_pos hst]
      exact hgood
    · rw [if_neg hst]
      have hnt : nonTerminal conversation := by
        rcases not_and_or.mp hst with h | h
        · exact Or.inl (not_not.mp h)
        · exact Or.inr (not_not.mp h)
      exact finish_preserves_good s id conversation _ hgood hf hnt
        (fun c => rfl) (fun c => by simp [nonTerminal])

theorem good_of_reachable (s : SystemState) (h : Reachable s) : GoodState s := by
  induction h with
  | init agents hinact =>
    refine ⟨?_, ?_, ?_⟩
    · intro a ha
      constructor
      · intro hact
        rw [hinact a ha] at hact
        cases hact
      · rintro ⟨c, hc, _⟩
        cases hc
    · intro c1 h1c
      cases h1c
    · simp
  | step s s2 hr hs ih =>
    cases hs with
    | create newId now data hfresh => exact create_preserves_good s newId now data ih hfresh
    | complete id ga now => exact complete_preserves_good s id ga now ih
    | terminate id now => exact terminate_preserves_good s id now ih

/-- C1: in every state reachable from an all-inactive store through
sequences of `createConversation`, `completeConversation` and
`terminateConversation` calls, an agent's status is `active` exactly when
the agent is a participant of at least one conversation whose status is
`active` or `paused`. -/
theorem C1_agent_status_iff (s : SystemState) (h : Reachable s) :
    ∀ a ∈ s.agents,
      (a.status = .active ↔
        ∃ c ∈ s.conversations, (c.status = .active ∨ c.status = .paused) ∧ a.id ∈ c.participants) := by
  intro a ha
  exact (good_of_reachable s h).1 a ha

def s0W : SystemState := { agents := [carolW, daveW], conversations := [] }

def s1W : SystemState := (ConversationService.createConversation s0W "c7" 0 createDtoW).2

def carolActiveW : Agent := { carolW with status := .active }

theorem C1_agent_status_iff_witness :
    carolActiveW.status = .active ↔
      ∃ c ∈ s1W.conversations,
        (c.status = .active ∨ c.status = .paused) ∧ carolActiveW.id ∈ c.participants :=
  C1_agent_status_iff s1W
    (Reachable.step s0W s1W (Reachable.init [carolW, daveW] (by decide))
      (Step.create s0W "c7" 0 createDtoW (by decide)))
    carolActiveW (by decide)
